import Mathlib

/-!
Shallow embedding of the Bourbon proxy's content-rewriting and
session-state layer: the URL rewrite engine and content transformer
(`EnhancedRewriter`), the session store (`SessionManager`) and the
middleware pipeline (`AdvancedMiddleware`).  JavaScript strings are
modelled as Lean `String`/`List Char`, JS `null`/`undefined` as `Option`,
thrown exceptions as `Except`/`Option`, and the insertion-ordered JS `Map`
as an association list.
-/

namespace Bourbon

/-- Single-quote character, written via its code point so that string
literals in this file stay free of quote characters. -/
def sq : Char := Char.ofNat 39

/-- Backtick character, written via its code point. -/
def btick : Char := Char.ofNat 96

/-- Single-quote as a one-character string. -/
def sqs : String := String.singleton sq

/-- ASCII letter test (`a`-`z`, `A`-`Z`). -/
def isAlphaChar (c : Char) : Bool :=
  (97 ≤ c.toNat && c.toNat ≤ 122) || (65 ≤ c.toNat && c.toNat ≤ 90)

/-- ASCII digit test. -/
def isDigitChar (c : Char) : Bool := 48 ≤ c.toNat && c.toNat ≤ 57

/-- Characters allowed in the host component of the URL model. -/
def isHostChar (c : Char) : Bool :=
  isAlphaChar c || isDigitChar c || c = '.' || c = '-'

/-- Visible ASCII, the characters allowed after the authority in the URL
model. -/
def isURLRestChar (c : Char) : Bool := 32 < c.toNat && c.toNat < 127

/-- Whitespace characters matched by the JavaScript regex class used in
the rewriting patterns (space, tab, line feed, vertical tab, form feed,
carriage return). -/
def isJsSpace (c : Char) : Bool :=
  c = ' ' || c.toNat = 9 || c.toNat = 10 || c.toNat = 11 || c.toNat = 12 || c.toNat = 13

/-- Uppercase hexadecimal digit for a value below 16, as produced by
`encodeURIComponent`. -/
def hexDigitChar (n : Nat) : Char :=
  if n < 10 then Char.ofNat (48 + n) else Char.ofNat (55 + n)

/-- UTF-8 encoding of one code point, as a list of byte values. -/
def utf8Bytes (c : Char) : List Nat :=
  if c.toNat < 128 then [c.toNat]
  else if c.toNat < 2048 then [192 + c.toNat / 64, 128 + c.toNat % 64]
  else if c.toNat < 65536 then
    [224 + c.toNat / 4096, 128 + (c.toNat / 64) % 64, 128 + c.toNat % 64]
  else
    [240 + c.toNat / 262144, 128 + (c.toNat / 4096) % 64, 128 + (c.toNat / 64) % 64,
      128 + c.toNat % 64]

/-- Characters `encodeURIComponent` leaves unescaped. -/
def isUnreservedEncodeChar (c : Char) : Bool :=
  isAlphaChar c || isDigitChar c || c = '-' || c = '_' || c = '.' || c = '!' ||
    c = '~' || c = '*' || c = sq || c = '(' || c = ')'

/-- Encoding of a single character under `encodeURIComponent`. -/
def encodeURIComponentChar (c : Char) : List Char :=
  if isUnreservedEncodeChar c then [c]
  else (utf8Bytes c).flatMap (fun b => ['%', hexDigitChar (b / 16), hexDigitChar (b % 16)])

/-- Model of the JavaScript `encodeURIComponent` builtin. -/
def encodeURIComponent (s : String) : String :=
  String.mk (s.data.flatMap encodeURIComponentChar)

/-- Model of JS `String.prototype.startsWith`. -/
def strStartsWith (s pre : String) : Bool := pre.data.isPrefixOf s.data

/-- Model of JS `String.prototype.includes`: contiguous-substring test. -/
def containsSub (hay needle : List Char) : Bool :=
  match hay with
  | [] => needle.isEmpty
  | c :: t => needle.isPrefixOf (c :: t) || containsSub t needle

/-- Parsed form of a hierarchical URL: scheme, hostname, optional port and
the remainder (path, query and fragment). -/
structure URLRec where
  scheme : String
  hostname : String
  port : Option String
  rest : String
deriving Repr, DecidableEq

/-- Serialization of the scheme with its trailing colon, as in the
`protocol` property of the platform URL object. -/
def URLRec.protocol (u : URLRec) : String := u.scheme ++ ":"

/-- Serialization of host and optional port, as in the `host` property of
the platform URL object. -/
def URLRec.hostPort (u : URLRec) : String :=
  u.hostname ++ (match u.port with | some p => ":" ++ p | none => "")

/-- Lowercase ASCII letter test. -/
def isLowerAlphaChar (c : Char) : Bool := 97 ≤ c.toNat && c.toNat ≤ 122

/-- Lowercasing of ASCII letters, as the WHATWG host parser applies to
domain names. -/
def toLowerChar (c : Char) : Char :=
  if 65 ≤ c.toNat && c.toNat ≤ 90 then Char.ofNat (c.toNat + 32) else c

/-- Numeric value of a decimal digit string. -/
def digitsVal (l : List Char) : Nat := l.foldl (fun a c => a * 10 + (c.toNat - 48)) 0

/-- Default ports of the special schemes, which the WHATWG parser strips
so that they never appear in `port` or `host`. -/
def defaultPort (scheme : String) : Option Nat :=
  if scheme = "http" ∨ scheme = "ws" then some 80
  else if scheme = "https" ∨ scheme = "wss" then some 443
  else if scheme = "ftp" then some 21
  else none

/-- Hosts whose last label is numeric are parsed as IPv4 addresses and
canonicalized by the platform; the model excludes them instead of
modelling IPv4 canonicalization. -/
def ipv4Like (host : List Char) : Bool :=
  match ((host.splitOn '.').filter (fun l => !l.isEmpty)).getLast? with
  | some lbl => lbl.all isDigitChar || ['0', 'x'].isPrefixOf lbl
  | none => false

/-- Characters the model allows after the authority: visible ASCII without
the backslash, which the platform would rewrite to a slash. -/
def isPathChar (c : Char) : Bool := isURLRestChar c && !(c = '\\')

/-- Model of the WHATWG `new URL(s)` parser used throughout the rewriter,
restricted to hierarchical ASCII URLs of the shape
`scheme://host[:port][rest]`: a lowercase-letter scheme, a host of
letters, digits, dots and hyphens that is not IPv4-like, a decimal port of
value at most 65535, and a visible-ASCII remainder free of backslashes.
On the inputs it accepts it performs the normalization the platform
performs: the host is lowercased and a default or empty port is stripped
(after dropping leading zeros). `none` models the constructor throwing. -/
def parseURL (s : String) : Option URLRec :=
  let schemeCs := s.data.takeWhile isLowerAlphaChar
  match s.data.dropWhile isLowerAlphaChar with
  | ':' :: '/' :: '/' :: rest2 =>
    if schemeCs.isEmpty then none
    else
      let hp := rest2.takeWhile (fun c => !(c = '/' || c = '?' || c = '#'))
      let rest3 := rest2.dropWhile (fun c => !(c = '/' || c = '?' || c = '#'))
      let hostCs := hp.takeWhile (fun c => c ≠ ':')
      let portCs := hp.dropWhile (fun c => c ≠ ':')
      if hostCs.isEmpty || !hostCs.all isHostChar || ipv4Like (hostCs.map toLowerChar) ||
          !rest3.all isPathChar then none
      else
        match portCs with
        | [] =>
          some ⟨String.mk schemeCs, String.mk (hostCs.map toLowerChar), none, String.mk rest3⟩
        | ':' :: pcs =>
          if !pcs.all isDigitChar || 65535 < digitsVal pcs then none
          else if pcs.isEmpty || defaultPort (String.mk schemeCs) = some (digitsVal pcs) then
            some ⟨String.mk schemeCs, String.mk (hostCs.map toLowerChar), none,
              String.mk rest3⟩
          else
            some ⟨String.mk schemeCs, String.mk (hostCs.map toLowerChar),
              some (toString (digitsVal pcs)), String.mk rest3⟩
        | _ => none
  | _ => none

/-- Configuration of the `EnhancedRewriter` class, from its constructor. -/
structure RewriterConfig where
  proxyUrl : String := ""
  enableMinification : Bool := false
  customScripts : List String := []
  blockedDomains : List String := []

/-- Splitting of a path into segments at the separators the platform
accepts in special schemes (slash and backslash), keeping empty
segments. -/
def splitSegs : List Char → List (List Char)
  | [] => [[]]
  | c :: t =>
    if c = '/' || c = '\\' then [] :: splitSegs t
    else
      match splitSegs t with
      | seg :: rest => (c :: seg) :: rest
      | [] => [[c]]

/-- Removal of `.` and `..` path segments during reference resolution,
keeping empty segments and leaving a trailing empty segment (a trailing
slash) when the reference ends in a dot segment, as the platform
serializer does. -/
def removeDotSegments (segs : List (List Char)) : List (List Char) :=
  let out := segs.foldl
    (fun acc seg =>
      if seg = ['.'] then acc
      else if seg = ['.', '.'] then acc.dropLast
      else acc ++ [seg]) []
  match segs.getLast? with
  | some s => if s = ['.'] ∨ s = ['.', '.'] then out ++ [[]] else out
  | none => out

/-- Model of WHATWG relative-reference resolution `new URL(rel, base).href`
for the dot-relative references the rewriter passes to it: the reference
path is merged with the directory of the base path, dot segments are
removed preserving empty segments and trailing slashes, the query or
fragment suffix of the reference is kept verbatim, and the result is
serialized against the base origin (whose default port the parser already
stripped). References are assumed to be in URL-safe form already; the
model does not percent-encode stray characters. Dot-relative references
against a hierarchical base always resolve, on the platform as well. -/
def resolveAgainst (rel : String) (b : URLRec) : Option String :=
  let basePathCs := b.rest.data.takeWhile (fun c => !(c = '?' || c = '#'))
  let baseDir := ((splitSegs basePathCs).drop 1).dropLast
  let relPath := rel.data.takeWhile (fun c => !(c = '?' || c = '#'))
  let relSuffix := rel.data.dropWhile (fun c => !(c = '?' || c = '#'))
  let merged := removeDotSegments (baseDir ++ splitSegs relPath)
  some (b.protocol ++ "//" ++ b.hostPort ++ "/" ++
    String.mk (List.intercalate ['/'] merged ++ relSuffix))

/-- Value of the local variable `url` in `EnhancedRewriter.rewriteURL` when
control reaches the blocked-domain check: root-relative URLs are resolved
against the target origin, dot-relative URLs through the URL constructor,
non-`http` URLs are returned early and resolution failures fall back to the
original argument (`none` covers both the early return and the catch that
returns the unmodified argument). -/
def resolveStep (url targetUrl : String) : Option String :=
  if url.data.isEmpty then none
  else if strStartsWith url "/" then
    (parseURL targetUrl).map (fun b => b.protocol ++ "//" ++ b.hostPort ++ url)
  else if strStartsWith url "./" || strStartsWith url "../" then
    (parseURL targetUrl).bind (fun b => resolveAgainst url b)
  else if strStartsWith url "http" then some url
  else none

/-- Blocked-domain check and gateway construction from
`EnhancedRewriter.rewriteURL`: hosts containing a configured blocked domain
as a substring pass through unchanged, every other URL becomes
`proxyUrl/api/gateway?url=<encodeURIComponent(url)>`; a parse failure
returns the current value of `url` (the catch clause). -/
def gatewayOrBlocked (cfg : RewriterConfig) (url : String) : String :=
  match parseURL url with
  | none => url
  | some r =>
    if cfg.blockedDomains.any (fun d => containsSub r.hostname.data d.data) then url
    else cfg.proxyUrl ++ "/api/gateway?url=" ++ encodeURIComponent url

/-- Embedding of `EnhancedRewriter.rewriteURL`: falsy URLs pass through,
otherwise resolution followed by the blocked-domain check and gateway
construction. -/
def rewriteURL (cfg : RewriterConfig) (url targetUrl : String) : String :=
  match resolveStep url targetUrl with
  | none => url
  | some v => gatewayOrBlocked cfg v

/-- Form-urlencoding of one character as produced by `URLSearchParams`. -/
def formUrlEncodeChar (c : Char) : List Char :=
  if c = ' ' then ['+']
  else if isAlphaChar c || isDigitChar c || c = '*' || c = '-' || c = '.' || c = '_' then [c]
  else (utf8Bytes c).flatMap (fun b => ['%', hexDigitChar (b / 16), hexDigitChar (b % 16)])

/-- Embedding of `EnhancedRewriter.rewriteWebSocketURL`: on a parseable URL
the `/api/ws` endpoint with the original URL as a form-urlencoded `url`
parameter, otherwise the input unchanged (the catch clause). -/
def rewriteWebSocketURL (cfg : RewriterConfig) (url : String) : String :=
  match parseURL url with
  | none => url
  | some _ =>
    match parseURL (cfg.proxyUrl ++ "/api/ws") with
    | none => url
    | some _ => cfg.proxyUrl ++ "/api/ws?url=" ++ String.mk (url.data.flatMap formUrlEncodeChar)

/-- Embedding of `EnhancedRewriter.isURL`: whether the platform URL
constructor accepts the string. -/
def isURL (s : String) : Bool := (parseURL s).isSome

/-- Global regex replacement: scan left to right, at each position try the
matcher; on a match emit its replacement and continue after the match,
otherwise copy one character, as `String.prototype.replace` does with a
global regex. The fuel argument bounds the number of scan steps and is
instantiated with the input length, which suffices because every step
consumes at least one character of the remaining input. -/
def replaceScanAux (m : List Char → Option (List Char × List Char)) :
    Nat → List Char → List Char
  | _, [] => []
  | 0, l => l
  | fuel + 1, c :: rest =>
    match m (c :: rest) with
    | some (rep, rem) => rep ++ replaceScanAux m fuel rem
    | none => c :: replaceScanAux m fuel rest

/-- Entry point of the scanning replacement with sufficient fuel. -/
def replaceScan (m : List Char → Option (List Char × List Char)) (l : List Char) : List Char :=
  replaceScanAux m l.length l

/-- Matcher for the CSS url regex of `rewriteCSS`, pattern
`url\(['"]?([^'")]+)['"]?\)` with the replacement template emitting the
rewritten URL between single quotes: an optional opening quote, a
nonempty capture of characters outside quotes and closing parenthesis, an
optional closing quote, then a closing parenthesis. -/
def cssUrlMatcher (rw : String → String) : List Char → Option (List Char × List Char)
  | 'u' :: 'r' :: 'l' :: '(' :: rest =>
    let rest1 := match rest with
      | c :: t => if c = sq || c = '"' then t else c :: t
      | [] => []
    let cap := rest1.takeWhile (fun c => !(c = sq || c = '"' || c = ')'))
    let rest2 := rest1.dropWhile (fun c => !(c = sq || c = '"' || c = ')'))
    if cap.isEmpty then none
    else
      let rest3 := match rest2 with
        | c :: t => if c = sq || c = '"' then t else c :: t
        | [] => []
      match rest3 with
      | ')' :: rest4 => some (("url(" ++ sqs ++ rw (String.mk cap) ++ sqs ++ ")").data, rest4)
      | _ => none
  | _ => none

/-- Matcher for the CSS import regex of `rewriteCSS`, pattern
`@import\s+['"]([^'"]+)['"]` with the replacement template emitting the
rewritten URL between single quotes after `@import` and one space. -/
def cssImportMatcher (rw : String → String) : List Char → Option (List Char × List Char)
  | '@' :: 'i' :: 'm' :: 'p' :: 'o' :: 'r' :: 't' :: rest =>
    if (rest.takeWhile isJsSpace).isEmpty then none
    else
      match rest.dropWhile isJsSpace with
      | q :: rest2 =>
        if q = sq || q = '"' then
          let cap := rest2.takeWhile (fun c => !(c = sq || c = '"'))
          let rest3 := rest2.dropWhile (fun c => !(c = sq || c = '"'))
          if cap.isEmpty then none
          else
            match rest3 with
            | q2 :: rest4 =>
              if q2 = sq || q2 = '"' then
                some (("@import " ++ sqs ++ rw (String.mk cap) ++ sqs).data, rest4)
              else none
            | [] => none
        else none
      | [] => none
  | _ => none

/-- Embedding of `EnhancedRewriter.rewriteCSS`: the `url(...)` regex pass
followed by the `@import` regex pass, both rewriting each reference through
`rewriteURL` and emitting single-quoted replacements. A missing
`targetUrl` option is modelled by a non-parseable string, matching the
behavior of the URL constructor on `undefined`. -/
def rewriteCSS (cfg : RewriterConfig) (css : String) (targetUrl : String) : String :=
  String.mk (replaceScan (cssImportMatcher (fun u => rewriteURL cfg u targetUrl))
    (replaceScan (cssUrlMatcher (fun u => rewriteURL cfg u targetUrl)) css.data))


/-- Claim C6 counterexample: on the spec's example input the code produces
the gateway under `/api/gateway`, not the `/gateway` form stated in the
spec, so the claimed output differs from the actual one. -/
theorem rewriteCSS_example_cex :
    rewriteCSS ⟨"http://p", false, [], []⟩ "body\x7bbackground:url(/bg.png)\x7d"
        "https://a.com/page" =
      "body\x7bbackground:url(" ++ sqs ++
        "http://p/api/gateway?url=https%3A%2F%2Fa.com%2Fbg.png" ++ sqs ++ ")\x7d" ∧
      "body\x7bbackground:url(" ++ sqs ++
          "http://p/api/gateway?url=https%3A%2F%2Fa.com%2Fbg.png" ++ sqs ++ ")\x7d" ≠
        "body\x7bbackground:url(" ++ sqs ++
          "http://p/gateway?url=https%3A%2F%2Fa.com%2Fbg.png" ++ sqs ++ ")\x7d" := by
  constructor
  · decide
  · decide

/-- Claim C6 (amended): `rewriteCSS` rewrites `url(...)` references and
`@import` targets through the URL engine, normalizing the quoting of every
rewritten reference to single quotes (rather than preserving the original
quoting), and the example input yields the `/api/gateway` form: unquoted
and double-quoted references both come back single-quoted. -/
theorem rewriteCSS_examples :
    rewriteCSS ⟨"http://p", false, [], []⟩ "body\x7bbackground:url(/bg.png)\x7d"
        "https://a.com/page" =
      "body\x7bbackground:url(" ++ sqs ++
        "http://p/api/gateway?url=https%3A%2F%2Fa.com%2Fbg.png" ++ sqs ++ ")\x7d" ∧
      rewriteCSS ⟨"http://p", false, [], []⟩ "a\x7bb:url(\"https://a.com/x\")\x7d"
          "https://a.com/page" =
        "a\x7bb:url(" ++ sqs ++ "http://p/api/gateway?url=https%3A%2F%2Fa.com%2Fx" ++ sqs ++
          ")\x7d" ∧
      rewriteCSS ⟨"http://p", false, [], []⟩ "@import \"https://a.com/s.css\";"
          "https://a.com/page" =
        "@import " ++ sqs ++ "http://p/api/gateway?url=https%3A%2F%2Fa.com%2Fs.css" ++ sqs ++
          ";" := by
  refine ⟨by decide, by decide, by decide⟩

/-- JSON value tree as produced by the platform `JSON.parse`; numbers are
modelled as integers, which the rewriter never inspects. -/
inductive Json where
  | str : String → Json
  | num : Int → Json
  | jsbool : Bool → Json
  | null : Json
  | arr : List Json → Json
  | obj : List (String × Json) → Json
deriving Repr

/-- Embedding of `EnhancedRewriter.rewriteObject`: strings that parse as
URLs are rewritten, arrays and objects are walked recursively preserving
key order, and every other value passes through. -/
def rewriteObject (cfg : RewriterConfig) (targetUrl : String) : Json → Json
  | .str s => if isURL s then .str (rewriteURL cfg s targetUrl) else .str s
  | .arr items => .arr (items.attach.map (fun x => rewriteObject cfg targetUrl x.1))
  | .obj fields =>
    .obj (fields.attach.map (fun x => (x.1.1, rewriteObject cfg targetUrl x.1.2)))
  | j => j
termination_by j => sizeOf j
decreasing_by
  · have := List.sizeOf_lt_of_mem x.2
    simp_wf
    omega
  · have := List.sizeOf_lt_of_mem x.2
    obtain ⟨⟨a, b⟩, hx⟩ := x
    simp_wf
    simp [Prod.mk.sizeOf_spec] at this ⊢
    omega

/-- Lowercase hexadecimal digit, used by the JSON string escaper. -/
def hexDigitCharLower (n : Nat) : Char :=
  if n < 10 then Char.ofNat (48 + n) else Char.ofNat (87 + n)

/-- Escaping of one character inside a JSON string literal, as
`JSON.stringify` produces it. -/
def jsonEscapeChar (c : Char) : List Char :=
  if c = '"' then ['\\', '"']
  else if c = '\\' then ['\\', '\\']
  else if c.toNat = 10 then ['\\', 'n']
  else if c.toNat = 13 then ['\\', 'r']
  else if c.toNat = 9 then ['\\', 't']
  else if c.toNat = 8 then ['\\', 'b']
  else if c.toNat = 12 then ['\\', 'f']
  else if c.toNat < 32 then
    ['\\', 'u', '0', '0', hexDigitCharLower (c.toNat / 16), hexDigitCharLower (c.toNat % 16)]
  else [c]

/-- Serialization of a JSON string literal. -/
def jsonQuote (s : String) : String :=
  "\"" ++ String.mk (s.data.flatMap jsonEscapeChar) ++ "\""

/-- Model of the platform `JSON.stringify` on the JSON tree: compact
serialization without added whitespace, preserving key order. -/
def stringify : Json → String
  | .str s => jsonQuote s
  | .num n => toString n
  | .jsbool b => if b then "true" else "false"
  | .null => "null"
  | .arr items =>
    "[" ++ String.intercalate "," (items.attach.map (fun x => stringify x.1)) ++ "]"
  | .obj fields =>
    "\x7b" ++ String.intercalate ","
      (fields.attach.map (fun x => jsonQuote x.1.1 ++ ":" ++ stringify x.1.2)) ++ "\x7d"
termination_by j => sizeOf j
decreasing_by
  · have := List.sizeOf_lt_of_mem x.2
    simp_wf
    omega
  · have := List.sizeOf_lt_of_mem x.2
    obtain ⟨⟨a, b⟩, hx⟩ := x
    simp_wf
    simp [Prod.mk.sizeOf_spec] at this ⊢
    omega

/-- Embedding of `EnhancedRewriter.rewriteJSON`. The platform `JSON.parse`
builtin is a parameter (`none` models its exception); a parse failure is
caught by the method and the input returned unchanged. -/
def rewriteJSON (jsonParse : String → Option Json) (cfg : RewriterConfig)
    (json : String) (targetUrl : String) : String :=
  match jsonParse json with
  | some data => stringify (rewriteObject cfg targetUrl data)
  | none => json

/-- Quote characters accepted by the JavaScript call-site regexes. -/
def jsQuote (c : Char) : Bool := c = sq || c = '"' || c = btick

/-- Matcher for the fetch regex of `rewriteJavaScript`, pattern
`fetch\s*\(\s*['"`]([^'"`]+)['"`]`, replacing with `fetch(` and the
rewritten URL between single quotes. -/
def fetchMatcher (rw : String → String) : List Char → Option (List Char × List Char)
  | 'f' :: 'e' :: 't' :: 'c' :: 'h' :: rest =>
    match rest.dropWhile isJsSpace with
    | '(' :: rest2 =>
      match rest2.dropWhile isJsSpace with
      | q :: rest4 =>
        if jsQuote q then
          let cap := rest4.takeWhile (fun c => !jsQuote c)
          let rest5 := rest4.dropWhile (fun c => !jsQuote c)
          if cap.isEmpty then none
          else
            match rest5 with
            | q2 :: rest6 =>
              if jsQuote q2 then
                some (("fetch(" ++ sqs ++ rw (String.mk cap) ++ sqs).data, rest6)
              else none
            | [] => none
        else none
      | [] => none
    | _ => none
  | _ => none

/-- Matcher for the XMLHttpRequest open regex of `rewriteJavaScript`,
pattern `\.open\s*\(\s*['"`]([^'"`]+)['"`]`. The source's replace callback
declares parameters `(match, method, url)` for a regex with a single
capture group, so `method` binds the captured URL and `url` binds the match
offset; `rewriteURL` returns that non-string offset unchanged and the
template interpolates it, producing `.open('<captured>', '<offset>'`. -/
def openMatcher (pos : Nat) : List Char → Option (List Char × List Char)
  | '.' :: 'o' :: 'p' :: 'e' :: 'n' :: rest =>
    match rest.dropWhile isJsSpace with
    | '(' :: rest2 =>
      match rest2.dropWhile isJsSpace with
      | q :: rest4 =>
        if jsQuote q then
          let cap := rest4.takeWhile (fun c => !jsQuote c)
          let rest5 := rest4.dropWhile (fun c => !jsQuote c)
          if cap.isEmpty then none
          else
            match rest5 with
            | q2 :: rest6 =>
              if jsQuote q2 then
                some ((".open(" ++ sqs ++ String.mk cap ++ sqs ++ ", " ++ sqs ++
                  toString pos ++ sqs).data, rest6)
              else none
            | [] => none
        else none
      | [] => none
    | _ => none
  | _ => none

/-- Matcher for the WebSocket regex of `rewriteJavaScript`, pattern
`new\s+WebSocket\s*\(\s*['"`]([^'"`]+)['"`]`, replacing with
`new WebSocket(` and the rewritten WebSocket URL between single quotes. -/
def wsMatcher (rw : String → String) : List Char → Option (List Char × List Char)
  | 'n' :: 'e' :: 'w' :: rest =>
    if (rest.takeWhile isJsSpace).isEmpty then none
    else
      match rest.dropWhile isJsSpace with
      | 'W' :: 'e' :: 'b' :: 'S' :: 'o' :: 'c' :: 'k' :: 'e' :: 't' :: rest2 =>
        match rest2.dropWhile isJsSpace with
        | '(' :: rest3 =>
          match rest3.dropWhile isJsSpace with
          | q :: rest4 =>
            if jsQuote q then
              let cap := rest4.takeWhile (fun c => !jsQuote c)
              let rest5 := rest4.dropWhile (fun c => !jsQuote c)
              if cap.isEmpty then none
              else
                match rest5 with
                | q2 :: rest6 =>
                  if jsQuote q2 then
                    some (("new WebSocket(" ++ sqs ++ rw (String.mk cap) ++ sqs).data, rest6)
                  else none
                | [] => none
            else none
          | [] => none
        | _ => none
      | _ => none
  | _ => none

/-- Position-tracking variant of the scanning replacement, for replace
callbacks that use the match offset. -/
def replaceScanPosAux (m : Nat → List Char → Option (List Char × List Char)) :
    Nat → Nat → List Char → List Char
  | _, _, [] => []
  | 0, _, l => l
  | fuel + 1, pos, c :: rest =>
    match m pos (c :: rest) with
    | some (rep, rem) => rep ++ replaceScanPosAux m fuel (pos + ((c :: rest).length - rem.length)) rem
    | none => c :: replaceScanPosAux m fuel (pos + 1) rest

/-- Entry point of the position-tracking scanning replacement. -/
def replaceScanPos (m : Nat → List Char → Option (List Char × List Char))
    (l : List Char) : List Char :=
  replaceScanPosAux m l.length 0 l

/-- Embedding of the storage-isolation shim that
`EnhancedRewriter.injectSessionManagement` prepends; the template text is
reproduced with condensed indentation, which no theorem depends on. -/
def sessionCodeTemplate (sid : String) : String :=
  s!"\n// Session management\nif (typeof window !== {sqs}undefined{sqs}) \x7b\n window.BOURBON_SESSION = {sqs}{sid}{sqs};\n const originalLocalStorage = window.localStorage;\n window.localStorage = \x7b\n getItem: function(key) \x7b return originalLocalStorage.getItem({sqs}bourbon_{sqs} + key); \x7d,\n setItem: function(key, value) \x7b return originalLocalStorage.setItem({sqs}bourbon_{sqs} + key, value); \x7d,\n removeItem: function(key) \x7b return originalLocalStorage.removeItem({sqs}bourbon_{sqs} + key); \x7d,\n clear: function() \x7b return originalLocalStorage.clear(); \x7d,\n get length() \x7b return originalLocalStorage.length; \x7d,\n key: function(index) \x7b return originalLocalStorage.key(index); \x7d\n \x7d;\n\x7d\n"

/-- Embedding of `EnhancedRewriter.injectSessionManagement`. -/
def injectSessionManagement (js : String) (sessionId : String) : String :=
  sessionCodeTemplate sessionId ++ "\n" ++ js

/-- Embedding of `EnhancedRewriter.rewriteJavaScript`: the fetch, open and
WebSocket regex passes in order, then the storage shim when a session id is
supplied (a truthy, hence nonempty, string). -/
def rewriteJavaScript (cfg : RewriterConfig) (js : String) (targetUrl : String)
    (sessionId : Option String) : String :=
  let p1 := replaceScanPos (fun _ l => fetchMatcher (fun u => rewriteURL cfg u targetUrl) l)
    js.data
  let p2 := replaceScanPos openMatcher p1
  let p3 := replaceScanPos (fun _ l => wsMatcher (fun u => rewriteWebSocketURL cfg u) l) p2
  match sessionId with
  | some sid => if sid = "" then String.mk p3 else injectSessionManagement (String.mk p3) sid
  | none => String.mk p3

/-- Options record destructured by `rewriteContent`; absent fields are
`undefined`. -/
structure RewriteOpts where
  sessionId : Option String := none
  targetUrl : Option String := none

/-- Embedding of `EnhancedRewriter.rewriteContent`. The HTML rewriter
(which runs on the JSDOM platform tree) and the `JSON.parse` builtin are
parameters; `Except.error` models an uncaught exception escaping the call.
A `none` content or content type is `null`/`undefined`; destructuring a
`null` options argument throws before the internal try block, while a
`null` content type makes the `includes` call inside the try throw, which
is caught and the original content returned. An `undefined` target URL is
modelled by the string the URL constructor coerces it to. -/
def rewriteContent (fHTML : String → RewriteOpts → Except String String)
    (jsonParse : String → Option Json) (cfg : RewriterConfig)
    (content : Option String) (contentType : Option String)
    (options : Option RewriteOpts) : Except String (Option String) :=
  if content = none ∨ content = some "" then Except.ok content
  else
    match options with
    | none => Except.error "TypeError: cannot destructure null options"
    | some opts =>
      let c := content.getD ""
      match contentType with
      | none => Except.ok content
      | some ct =>
        if containsSub ct.data "text/html".data then
          match fHTML c opts with
          | Except.ok h => Except.ok (some h)
          | Except.error _ => Except.ok content
        else if containsSub ct.data "text/css".data then
          Except.ok (some (rewriteCSS cfg c (opts.targetUrl.getD "undefined")))
        else if containsSub ct.data "application/javascript".data then
          Except.ok (some (rewriteJavaScript cfg c (opts.targetUrl.getD "undefined")
            opts.sessionId))
        else if containsSub ct.data "application/json".data then
          Except.ok (some (rewriteJSON jsonParse cfg c (opts.targetUrl.getD "undefined")))
        else Except.ok content

/-- Claim C2 (amended): whenever the options argument is an object (the
declared default applies when it is omitted), `rewriteContent` never
throws, regardless of the behavior of the platform HTML rewriter and JSON
parser: a failing HTML rewrite is caught and the original content
returned, and unparseable JSON yields the original content; only a `null`
options argument escapes, because it is destructured before the try
block. -/
theorem rewriteContent_no_throw (fHTML : String → RewriteOpts → Except String String)
    (jsonParse : String → Option Json) (cfg : RewriterConfig)
    (content contentType : Option String) (opts : RewriteOpts) :
    (∃ r, rewriteContent fHTML jsonParse cfg content contentType (some opts) =
        Except.ok r) ∧
      (∀ s ct e, content = some s → ¬s = "" → contentType = some ct →
        containsSub ct.data "text/html".data = true → fHTML s opts = Except.error e →
        rewriteContent fHTML jsonParse cfg content contentType (some opts) =
          Except.ok content) ∧
      (∀ s ct, content = some s → ¬s = "" → contentType = some ct →
        containsSub ct.data "text/html".data = false →
        containsSub ct.data "text/css".data = false →
        containsSub ct.data "application/javascript".data = false →
        containsSub ct.data "application/json".data = true →
        jsonParse s = none →
        rewriteContent fHTML jsonParse cfg content contentType (some opts) =
          Except.ok content) := by
  refine ⟨?_, ?_, ?_⟩
  · unfold rewriteContent
    dsimp only
    repeat' split
    all_goals exact ⟨_, rfl⟩
  · intro s ct e hc hs hct hhtml hf
    subst hc
    subst hct
    unfold rewriteContent
    rw [if_neg (by simp [hs])]
    dsimp only
    rw [hhtml]
    simp only [if_true]
    rw [show (some s).getD "" = s from rfl, hf]
  · intro s ct hc hs hct h1 h2 h3 h4 hp
    subst hc
    subst hct
    unfold rewriteContent
    rw [if_neg (by simp [hs])]
    dsimp only
    rw [h1, h2, h3, h4]
    simp only [Bool.false_eq_true, if_false, if_true]
    unfold rewriteJSON
    rw [show (some s).getD "" = s from rfl, hp]

/-- Witness for C2 (amended) with a failing HTML rewriter on HTML
content. -/
theorem rewriteContent_no_throw_witness :
    (∃ r, rewriteContent (fun _ _ => Except.error "boom") (fun _ => none)
        ⟨"", false, [], []⟩ (some "x") (some "text/html") (some ⟨none, none⟩) =
        Except.ok r) ∧
      rewriteContent (fun _ _ => Except.error "boom") (fun _ => none)
          ⟨"", false, [], []⟩ (some "x") (some "text/html") (some ⟨none, none⟩) =
        Except.ok (some "x") := by
  obtain ⟨h1, h2, h3⟩ := rewriteContent_no_throw (fun _ _ => Except.error "boom")
    (fun _ => none) ⟨"", false, [], []⟩ (some "x") (some "text/html") ⟨none, none⟩
  exact ⟨h1, h2 "x" "text/html" "boom" rfl (by decide) rfl (by decide) rfl⟩

/-- Claim C2 counterexample: with truthy content, calling `rewriteContent`
with a `null` options argument throws, because the options object is
destructured before the try block; so it is not true that `rewriteContent`
never throws for every input. -/
theorem rewriteContent_null_options_cex :
    rewriteContent (fun s _ => Except.ok s) (fun _ => none) ⟨"", false, [], []⟩
        (some "x") (some "text/html") none =
      Except.error "TypeError: cannot destructure null options" := by
  rfl

/-- Claim C10: falsy content (`null`, `undefined` or the empty string) is
returned unchanged immediately, before the options destructuring and the
content-type dispatch, for every content type including `null` and for
every options value including `null`. -/
theorem rewriteContent_falsy_passthrough (fHTML : String → RewriteOpts → Except String String)
    (jsonParse : String → Option Json) (cfg : RewriterConfig)
    (contentType : Option String) (options : Option RewriteOpts) :
    rewriteContent fHTML jsonParse cfg none contentType options = Except.ok none ∧
      rewriteContent fHTML jsonParse cfg (some "") contentType options =
        Except.ok (some "") := by
  constructor
  · unfold rewriteContent
    rw [if_pos (Or.inl rfl)]
  · unfold rewriteContent
    rw [if_pos (Or.inr rfl)]

/-- Middleware phases of `AdvancedMiddleware`. -/
inductive Phase where
  | request
  | response
  | error
deriving Repr, DecidableEq

/-- Per-exchange middleware context: the exchange data plus the `error`
field that the pipeline attaches when escalating a failure. -/
structure MWContext (α E : Type) where
  data : α
  error : Option E
deriving Repr, DecidableEq

/-- Handler over a context: the context as mutated by the handler, paired
with `some e` when the handler threw `e` (mutations made before the throw
persist, as they do on the shared JS context object). -/
def Handler (α E : Type) : Type := MWContext α E → MWContext α E × Option E

/-- Registered middleware chains of an `AdvancedMiddleware` instance. -/
structure MWSys (α E : Type) where
  request : List (Handler α E)
  response : List (Handler α E)
  error : List (Handler α E)

/-- Chain lookup, as `this.middlewares[type]`. -/
def MWSys.get (sys : MWSys α E) : Phase → List (Handler α E)
  | Phase.request => sys.request
  | Phase.response => sys.response
  | Phase.error => sys.error

/-- Attachment of a captured failure to a copy of the context, as the
spread `{ ...context, error }` in `execute`. -/
def attachError (c : MWContext α E) (e : E) : MWContext α E :=
  { c with error := some e }

/-- Execution of the error chain by the nested `execute('error', ...)`
call: handlers run in order on the copied context; a failing error handler
rethrows its own failure (the `type !== 'error'` guard prevents further
nesting), abandoning the rest of the chain. Returns the final context and
the escaping failure, if any. -/
def runErrorChain (hs : List (Handler α E)) (c : MWContext α E) :
    MWContext α E × Option E :=
  match hs with
  | [] => (c, none)
  | h :: t =>
    match h c with
    | (c2, none) => runErrorChain t c2
    | (c2, some e) => (c2, some e)

/-- Result of `execute`: the context after the handlers that ran, the
failure that escapes to the caller (if any), and the list of contexts with
which the `error` phase was invoked. -/
structure ExecResult (α E : Type) where
  ctx : MWContext α E
  err : Option E
  errorCalls : List (MWContext α E)
deriving Repr

/-- Execution of a non-error chain by `execute`: handlers run in order;
on the first failure the error phase runs once on the context copy with
the failure attached, then the original failure is rethrown unless an
error handler itself threw, in which case that later failure escapes
instead. -/
def runPhaseChain (errHs : List (Handler α E)) :
    List (Handler α E) → MWContext α E → ExecResult α E
  | [], c => ⟨c, none, []⟩
  | h :: t, c =>
    match h c with
    | (c2, none) => runPhaseChain errHs t c2
    | (c2, some e) =>
      match runErrorChain errHs (attachError c2 e) with
      | (_, some e2) => ⟨c2, some e2, [attachError c2 e]⟩
      | (_, none) => ⟨c2, some e, [attachError c2 e]⟩

/-- Embedding of `AdvancedMiddleware.execute`: the chain of the requested
phase runs with the failure-escalation protocol; executing the error phase
directly never re-enters it. -/
def execute (sys : MWSys α E) (phase : Phase) (c : MWContext α E) : ExecResult α E :=
  match phase with
  | Phase.error =>
    match runErrorChain sys.error c with
    | (c2, e?) => ⟨c2, e?, []⟩
  | Phase.request => runPhaseChain sys.error sys.request c
  | Phase.response => runPhaseChain sys.error sys.response c

/-- Behavior of a non-error chain: either every handler succeeded and the
error phase was never invoked, or it was invoked exactly once, on a
context copy carrying the captured failure, and the escaping failure is
the error chain's own failure when it has one and the original failure
otherwise. -/
theorem runPhaseChain_cons_ok {α E : Type} {h : Handler α E} {c c2 : MWContext α E}
    (errHs t : List (Handler α E)) (hh : h c = (c2, none)) :
    runPhaseChain errHs (h :: t) c = runPhaseChain errHs t c2 := by
  rw [runPhaseChain, hh]

theorem runPhaseChain_cons_fail {α E : Type} {h : Handler α E} {c c2 : MWContext α E} {e : E}
    (errHs t : List (Handler α E)) (hh : h c = (c2, some e)) :
    runPhaseChain errHs (h :: t) c =
      match runErrorChain errHs (attachError c2 e) with
      | (_, some e2) => ⟨c2, some e2, [attachError c2 e]⟩
      | (_, none) => ⟨c2, some e, [attachError c2 e]⟩ := by
  rw [runPhaseChain, hh]

theorem runPhaseChain_spec {α E : Type} (errHs hs : List (Handler α E)) (c : MWContext α E) :
    ((runPhaseChain errHs hs c).err = none ∧ (runPhaseChain errHs hs c).errorCalls = []) ∨
      ∃ c1 e, (runPhaseChain errHs hs c).errorCalls = [attachError c1 e] ∧
        (runPhaseChain errHs hs c).err =
          some ((runErrorChain errHs (attachError c1 e)).2.getD e) := by
  induction hs generalizing c with
  | nil => left; exact ⟨rfl, rfl⟩
  | cons h t ih =>
    cases hh : h c with
    | mk c2 e? =>
      cases e? with
      | none =>
        rw [runPhaseChain_cons_ok errHs t hh]
        exact ih c2
      | some e =>
        rw [runPhaseChain_cons_fail errHs t hh]
        right
        refine ⟨c2, e, ?_⟩
        cases hre : runErrorChain errHs (attachError c2 e) with
        | mk c3 e2? =>
          cases e2? with
          | none => exact ⟨rfl, rfl⟩
          | some e2 => exact ⟨rfl, rfl⟩

/-- Claim C4 (amended): for a phase other than `error`, if some handler of
`execute(phase, context)` fails then the `error` phase is invoked exactly
once, with the context plus the captured failure attached, and afterwards
the original failure is re-raised to the caller provided the error chain
itself succeeds; when an error-phase handler also fails, that later
failure propagates to the caller instead of the original one. -/
theorem execute_escalation {α E : Type} (sys : MWSys α E) (phase : Phase)
    (c : MWContext α E) (hp : ¬phase = Phase.error) :
    ((execute sys phase c).err = none ∧ (execute sys phase c).errorCalls = []) ∨
      ∃ c1 e, (execute sys phase c).errorCalls = [attachError c1 e] ∧
        (execute sys phase c).err =
          some ((runErrorChain sys.error (attachError c1 e)).2.getD e) := by
  cases phase with
  | error => exact absurd rfl hp
  | request => exact runPhaseChain_spec sys.error sys.request c
  | response => exact runPhaseChain_spec sys.error sys.response c

/-- Witness for C4 (amended) on a concrete one-handler system whose
request handler fails and whose error chain succeeds. -/
theorem execute_escalation_witness :
    ¬Phase.request = Phase.error ∧
      (((execute (⟨[fun c => (c, some "A")], [], []⟩ : MWSys Nat String) Phase.request
            ⟨0, none⟩).err = none ∧
          (execute (⟨[fun c => (c, some "A")], [], []⟩ : MWSys Nat String) Phase.request
            ⟨0, none⟩).errorCalls = []) ∨
        ∃ c1 e,
          (execute (⟨[fun c => (c, some "A")], [], []⟩ : MWSys Nat String) Phase.request
            ⟨0, none⟩).errorCalls = [attachError c1 e] ∧
          (execute (⟨[fun c => (c, some "A")], [], []⟩ : MWSys Nat String) Phase.request
            ⟨0, none⟩).err =
            some ((runErrorChain (⟨[fun c => (c, some "A")], [], []⟩ :
              MWSys Nat String).error (attachError c1 e)).2.getD e)) :=
  ⟨by decide, execute_escalation ⟨[fun c => (c, some "A")], [], []⟩ Phase.request ⟨0, none⟩
    (by decide)⟩

/-- Claim C4 counterexample: a request handler throws `A` and the single
error-phase handler itself throws `B`; the caller of `execute` receives
`B`, not the original failure `A`, so the original failure is not always
the one re-raised. -/
theorem execute_later_failure_cex :
    (execute (⟨[fun c => (c, some "A")], [], [fun c => (c, some "B")]⟩ : MWSys Nat String)
        Phase.request ⟨0, none⟩).err = some "B" ∧
      ¬((execute (⟨[fun c => (c, some "A")], [], [fun c => (c, some "B")]⟩ :
          MWSys Nat String) Phase.request ⟨0, none⟩).err = some "A") := by
  constructor
  · rfl
  · intro hcontr
    rw [show (execute (⟨[fun c => (c, some "A")], [], [fun c => (c, some "B")]⟩ :
        MWSys Nat String) Phase.request ⟨0, none⟩).err = some "B" from rfl] at hcontr
    simp at hcontr

/-- Generic association-list lookup modelling `Map.prototype.get`. -/
def lookupEntry {k v : Type} [DecidableEq k] : List (k × v) → k → Option v
  | [], _ => none
  | (k0, v0) :: t, key => if k0 = key then some v0 else lookupEntry t key

/-- Generic association-list update modelling `Map.prototype.set`: replace
in place when the key exists, append otherwise. -/
def setEntry {k v : Type} [DecidableEq k] : List (k × v) → k → v → List (k × v)
  | [], key, val => [(key, val)]
  | (k0, v0) :: t, key, val =>
    if k0 = key then (key, val) :: t else (k0, v0) :: setEntry t key val

/-- Rate limiter configuration, from the options of
`AdvancedMiddleware.rateLimiter` with its declared defaults. -/
structure RLConfig where
  windowMs : Int := 60000
  maxRequests : Nat := 100

/-- Lazy pruning of a client's timestamp list: the shift loop of the rate
limiter drops leading entries strictly older than the window start. -/
def pruneOld (windowStart : Int) : List Int → List Int
  | [] => []
  | t :: rest => if t < windowStart then pruneOld windowStart rest else t :: rest

/-- Result of one rate-limiter invocation: the per-address store after the
call and the status code of the thrown failure, if any. -/
structure RLResult where
  store : List (String × List Int)
  err : Option Nat
deriving Repr, DecidableEq

/-- Embedding of the closure returned by `AdvancedMiddleware.rateLimiter`
for a request carrying a client address: the address's list is fetched
(installed empty when absent), pruned in place, and then the call either
throws an error tagged with status 429 (leaving the pruned list stored) or
records the current timestamp. -/
def rateLimiterStep (cfg : RLConfig) (store : List (String × List Int))
    (ip : String) (now : Int) : RLResult :=
  let pruned := pruneOld (now - cfg.windowMs) ((lookupEntry store ip).getD [])
  if cfg.maxRequests ≤ pruned.length then
    ⟨setEntry store ip pruned, some 429⟩
  else
    ⟨setEntry store ip (pruned ++ [now]), none⟩

theorem pruneOld_length (w : Int) (l : List Int) : (pruneOld w l).length ≤ l.length := by
  induction l with
  | nil => simp [pruneOld]
  | cons t rest ih =>
    rw [pruneOld]
    split
    · exact Nat.le_succ_of_le ih
    · simp

theorem mem_setEntry {k v : Type} [DecidableEq k] {l : List (k × v)} {key : k} {val : v}
    {p : k × v} (hp : p ∈ setEntry l key val) : p = (key, val) ∨ p ∈ l := by
  induction l with
  | nil => simpa [setEntry] using hp
  | cons q t ih =>
    obtain ⟨k0, v0⟩ := q
    rw [setEntry] at hp
    split at hp
    · rcases List.mem_cons.mp hp with rfl | hp
      · exact Or.inl rfl
      · exact Or.inr (List.mem_cons_of_mem _ hp)
    · rcases List.mem_cons.mp hp with rfl | hp
      · exact Or.inr (List.mem_cons_self _ _)
      · rcases ih hp with h | h
        · exact Or.inl h
        · exact Or.inr (List.mem_cons_of_mem _ h)

theorem lookupEntry_setEntry {k v : Type} [DecidableEq k] (l : List (k × v)) (key : k)
    (val : v) : lookupEntry (setEntry l key val) key = some val := by
  induction l with
  | nil => simp [setEntry, lookupEntry]
  | cons q t ih =>
    obtain ⟨k0, v0⟩ := q
    rw [setEntry]
    split
    · rw [lookupEntry, if_pos rfl]
    · rw [lookupEntry]
      split
      · simp_all
      · exact ih

theorem lookupEntry_mem {k v : Type} [DecidableEq k] {l : List (k × v)} {key : k} {val : v}
    (h : lookupEntry l key = some val) : (key, val) ∈ l := by
  induction l with
  | nil => simp [lookupEntry] at h
  | cons q t ih =>
    obtain ⟨k0, v0⟩ := q
    rw [lookupEntry] at h
    split at h
    · simp_all
    · exact List.mem_cons_of_mem _ (ih h)

/-- Claim C7: with a window of 1000 ms and a limit of 2 requests, three
requests from one client address all within 1000 ms produce exactly one
rate-limit failure, raised on the third request and tagged with status
429. -/
theorem rateLimiter_three_requests (ip : String) (t1 t2 t3 : Int)
    (h12 : t1 ≤ t2) (h23 : t2 ≤ t3) (hwin : t3 - t1 ≤ 1000) :
    (rateLimiterStep ⟨1000, 2⟩ [] ip t1).err = none ∧
      (rateLimiterStep ⟨1000, 2⟩ (rateLimiterStep ⟨1000, 2⟩ [] ip t1).store ip t2).err =
        none ∧
      (rateLimiterStep ⟨1000, 2⟩
          (rateLimiterStep ⟨1000, 2⟩ (rateLimiterStep ⟨1000, 2⟩ [] ip t1).store ip
            t2).store ip t3).err = some 429 := by
  have hp2 : ¬(t1 < t2 - 1000) := by omega
  have hp3 : ¬(t1 < t3 - 1000) := by omega
  have h1 : rateLimiterStep ⟨1000, 2⟩ [] ip t1 = ⟨[(ip, [t1])], none⟩ := by
    unfold rateLimiterStep
    simp [lookupEntry, pruneOld, setEntry]
  have h2 : rateLimiterStep ⟨1000, 2⟩ [(ip, [t1])] ip t2 = ⟨[(ip, [t1, t2])], none⟩ := by
    unfold rateLimiterStep
    simp [lookupEntry, setEntry, pruneOld, hp2]
  have h3 : (rateLimiterStep ⟨1000, 2⟩ [(ip, [t1, t2])] ip t3).err = some 429 := by
    unfold rateLimiterStep
    simp [lookupEntry, setEntry, pruneOld, hp3, hp2]
  rw [h1]
  rw [show (RLResult.mk [(ip, [t1])] none).store = [(ip, [t1])] from rfl, h2]
  exact ⟨rfl, rfl, h3⟩

/-- Witness for C7 at concrete timestamps. -/
theorem rateLimiter_three_requests_witness :
    (rateLimiterStep ⟨1000, 2⟩ [] "1.2.3.4" 0).err = none ∧
      (rateLimiterStep ⟨1000, 2⟩ (rateLimiterStep ⟨1000, 2⟩ [] "1.2.3.4" 0).store "1.2.3.4"
        500).err = none ∧
      (rateLimiterStep ⟨1000, 2⟩
          (rateLimiterStep ⟨1000, 2⟩ (rateLimiterStep ⟨1000, 2⟩ [] "1.2.3.4" 0).store
            "1.2.3.4" 500).store "1.2.3.4" 999).err = some 429 :=
  rateLimiter_three_requests "1.2.3.4" 0 500 999 (by omega) (by omega) (by omega)

/-- Claim C9: a rate-limiter invocation never grows any address's
timestamp list beyond `maxRequests`: a rejected request throws before its
timestamp is recorded, leaving exactly the pruned list stored, so rejected
requests consume no quota and do not extend the window. -/
theorem rateLimiter_no_overgrow (cfg : RLConfig) (store : List (String × List Int))
    (ip : String) (now : Int)
    (hb : ∀ p ∈ store, p.2.length ≤ cfg.maxRequests) :
    (∀ p ∈ (rateLimiterStep cfg store ip now).store, p.2.length ≤ cfg.maxRequests) ∧
      ((rateLimiterStep cfg store ip now).err.isSome = true →
        lookupEntry (rateLimiterStep cfg store ip now).store ip =
          some (pruneOld (now - cfg.windowMs) ((lookupEntry store ip).getD [])) ∧
        (pruneOld (now - cfg.windowMs) ((lookupEntry store ip).getD [])).length ≤
          ((lookupEntry store ip).getD []).length) := by
  have hcur : ((lookupEntry store ip).getD []).length ≤ cfg.maxRequests := by
    cases hl : lookupEntry store ip with
    | none => simp
    | some l => exact hb (ip, l) (lookupEntry_mem hl)
  have hplen := pruneOld_length (now - cfg.windowMs) ((lookupEntry store ip).getD [])
  unfold rateLimiterStep
  dsimp only
  split
  case isTrue hge =>
    refine ⟨?_, fun _ => ⟨lookupEntry_setEntry store ip _, hplen⟩⟩
    intro p hp
    rcases mem_setEntry hp with rfl | hp
    · exact le_trans hplen hcur
    · exact hb p hp
  case isFalse hlt =>
    refine ⟨?_, by simp⟩
    intro p hp
    rcases mem_setEntry hp with rfl | hp
    · simp only [List.length_append, List.length_cons, List.length_nil]
      omega
    · exact hb p hp

/-- Witness for C9 on a concrete store at capacity. -/
theorem rateLimiter_no_overgrow_witness :
    (∀ p ∈ (rateLimiterStep ⟨1000, 2⟩ [("a", [10, 20])] "a" 30).store,
        p.2.length ≤ 2) ∧
      ((rateLimiterStep ⟨1000, 2⟩ [("a", [10, 20])] "a" 30).err.isSome = true →
        lookupEntry (rateLimiterStep ⟨1000, 2⟩ [("a", [10, 20])] "a" 30).store "a" =
          some (pruneOld (30 - 1000) ((lookupEntry [("a", [10, 20])] "a").getD [])) ∧
        (pruneOld (30 - 1000) ((lookupEntry [("a", [10, 20])] "a").getD [])).length ≤
          ((lookupEntry [("a", [10, 20])] "a").getD []).length) :=
  rateLimiter_no_overgrow ⟨1000, 2⟩ [("a", [10, 20])] "a" 30 (by decide)

/-- Cookie record stored by `SessionManager.setCookie`. -/
structure CookieRec where
  value : String
  domain : String
  path : String
  expires : Option Int
  httpOnly : Bool
  secure : Bool
  sameSite : String
deriving Repr, DecidableEq

/-- Session settings object created by `SessionManager.createSession`. -/
structure Settings where
  enableJavaScript : Bool
  enableCookies : Bool
  enableLocalStorage : Bool
  enableWebSockets : Bool
deriving Repr, DecidableEq

/-- Per-session data of the session store. -/
structure SessData where
  cookies : List (String × CookieRec)
  localStorage : List (String × String)
  sessionStorage : List (String × String)
  customProxy : Option String
  userAgent : Option String
  headers : List (String × String)
  settings : Settings
deriving Repr, DecidableEq

/-- Session record held in the store's map. -/
structure SessionRec where
  id : String
  createdAt : Int
  lastAccessed : Int
  data : SessData
deriving Repr, DecidableEq

/-- Session manager configuration, from the `SessionManager` constructor
with its declared defaults. -/
structure SMConfig where
  maxSessions : Nat := 1000
  sessionTimeout : Int := 86400000

/-- Embedding of `SessionManager.cleanupOldSessions` on the
insertion-ordered store: delete every session whose inactivity exceeds the
timeout, then, if the store still exceeds the capacity, delete the ids of
the least-recently-accessed survivors (the first entries of the store
sorted by ascending `lastAccessed`) until at capacity. -/
def cleanupOldSessions (cfg : SMConfig) (now : Int)
    (store : List (String × SessionRec)) : List (String × SessionRec) :=
  let kept := store.filter (fun e => decide (now - e.2.lastAccessed ≤ cfg.sessionTimeout))
  if cfg.maxSessions < kept.length then
    let sorted := kept.mergeSort (fun a b => decide (a.2.lastAccessed ≤ b.2.lastAccessed))
    let doomed := (sorted.take (kept.length - cfg.maxSessions)).map Prod.fst
    kept.filter (fun e => decide (¬e.1 ∈ doomed))
  else kept

/-- Counting lemma for capacity eviction: removing from a list with
distinct keys exactly the keys of the first `k` entries of a permutation
of it leaves `length - k` entries. -/
theorem length_filter_not_mem_take_keys {α κ : Type} [DecidableEq κ] (key : α → κ)
    (l l2 : List α) (k : Nat) (hperm : l2.Perm l) (hnd : (l.map key).Nodup)
    (hk : k ≤ l2.length) :
    (l.filter (fun e => decide (¬key e ∈ (l2.take k).map key))).length = l.length - k := by
  have hnd2 : (l2.map key).Nodup := ((hperm.map key).nodup_iff).mpr hnd
  set p : α → Bool := fun e => decide (¬key e ∈ (l2.take k).map key) with hp
  have hflt := (hperm.filter p).symm
  rw [hflt.length_eq]
  have htake : (l2.take k).filter p = [] := by
    rw [List.filter_eq_nil_iff]
    intro a ha
    rw [hp]
    simp only [decide_eq_true_eq, not_not]
    exact List.mem_map_of_mem key ha
  have hdrop : (l2.drop k).filter p = l2.drop k := by
    rw [List.filter_eq_self]
    intro a ha
    rw [hp]
    simp only [decide_eq_true_eq]
    intro hmem
    have hnd3 : ((l2.take k).map key ++ (l2.drop k).map key).Nodup := by
      rw [← List.map_append, List.take_append_drop]
      exact hnd2
    have hdisj := (List.nodup_append.mp hnd3).2.2
    exact hdisj hmem (List.mem_map_of_mem key ha)
  conv_lhs => rw [← List.take_append_drop k l2, List.filter_append, htake, hdrop]
  rw [List.nil_append, List.length_drop, hperm.length_eq]

/-- Claim C3: after every eviction sweep, no stale session remains, the
store holds at most `maxSessions` sessions, and when the staleness pass
alone leaves more than `maxSessions` sessions, capacity eviction leaves
exactly `maxSessions`. -/
theorem cleanupOldSessions_spec (cfg : SMConfig) (now : Int)
    (store : List (String × SessionRec)) (hnd : (store.map Prod.fst).Nodup) :
    (∀ e ∈ cleanupOldSessions cfg now store,
        now - e.2.lastAccessed ≤ cfg.sessionTimeout) ∧
      (cleanupOldSessions cfg now store).length ≤ cfg.maxSessions ∧
      (cfg.maxSessions <
          (store.filter
            (fun e => decide (now - e.2.lastAccessed ≤ cfg.sessionTimeout))).length →
        (cleanupOldSessions cfg now store).length = cfg.maxSessions) := by
  have hknd : ((store.filter
      (fun e => decide (now - e.2.lastAccessed ≤ cfg.sessionTimeout))).map Prod.fst).Nodup :=
    ((List.filter_sublist store).map Prod.fst).nodup hnd
  have hperm := List.mergeSort_perm
    (store.filter (fun e => decide (now - e.2.lastAccessed ≤ cfg.sessionTimeout)))
    (fun a b => decide (a.2.lastAccessed ≤ b.2.lastAccessed))
  unfold cleanupOldSessions
  dsimp only
  constructor
  · intro e he
    split at he
    · have := List.mem_filter.mp he
      have := List.mem_filter.mp this.1
      simpa using this.2
    · have := List.mem_filter.mp he
      simpa using this.2
  · have hcount := length_filter_not_mem_take_keys Prod.fst
      (store.filter (fun e => decide (now - e.2.lastAccessed ≤ cfg.sessionTimeout)))
      ((store.filter (fun e => decide (now - e.2.lastAccessed ≤ cfg.sessionTimeout))).mergeSort
        (fun a b => decide (a.2.lastAccessed ≤ b.2.lastAccessed)))
      ((store.filter (fun e => decide (now - e.2.lastAccessed ≤ cfg.sessionTimeout))).length -
        cfg.maxSessions)
      hperm hknd
      (by rw [hperm.length_eq]; omega)
    constructor
    · split
      case isTrue hlt =>
        rw [hcount]
        omega
      case isFalse hge =>
        omega
    · intro hover
      rw [if_pos hover, hcount]
      omega

/-- Witness for C3 on a concrete store with one stale and three fresh
sessions against a capacity of two. -/
theorem cleanupOldSessions_spec_witness :
    (∀ e ∈ cleanupOldSessions ⟨2, 100⟩ 1000
        [("a", ⟨"a", 0, 10, ⟨[], [], [], none, none, [], ⟨true, true, true, true⟩⟩⟩),
         ("b", ⟨"b", 0, 950, ⟨[], [], [], none, none, [], ⟨true, true, true, true⟩⟩⟩),
         ("c", ⟨"c", 0, 990, ⟨[], [], [], none, none, [], ⟨true, true, true, true⟩⟩⟩),
         ("d", ⟨"d", 0, 920, ⟨[], [], [], none, none, [], ⟨true, true, true, true⟩⟩⟩)],
        1000 - e.2.lastAccessed ≤ 100) ∧
      (cleanupOldSessions ⟨2, 100⟩ 1000
        [("a", ⟨"a", 0, 10, ⟨[], [], [], none, none, [], ⟨true, true, true, true⟩⟩⟩),
         ("b", ⟨"b", 0, 950, ⟨[], [], [], none, none, [], ⟨true, true, true, true⟩⟩⟩),
         ("c", ⟨"c", 0, 990, ⟨[], [], [], none, none, [], ⟨true, true, true, true⟩⟩⟩),
         ("d", ⟨"d", 0, 920, ⟨[], [], [], none, none, [], ⟨true, true, true, true⟩⟩⟩)]).length ≤
        2 ∧
      (2 < ([("a", (⟨"a", 0, 10, ⟨[], [], [], none, none, [], ⟨true, true, true, true⟩⟩⟩ :
            SessionRec)),
         ("b", ⟨"b", 0, 950, ⟨[], [], [], none, none, [], ⟨true, true, true, true⟩⟩⟩),
         ("c", ⟨"c", 0, 990, ⟨[], [], [], none, none, [], ⟨true, true, true, true⟩⟩⟩),
         ("d", ⟨"d", 0, 920, ⟨[], [], [], none, none, [], ⟨true, true, true, true⟩⟩⟩)].filter
            (fun e => decide (1000 - e.2.lastAccessed ≤ 100))).length →
        (cleanupOldSessions ⟨2, 100⟩ 1000
          [("a", ⟨"a", 0, 10, ⟨[], [], [], none, none, [], ⟨true, true, true, true⟩⟩⟩),
           ("b", ⟨"b", 0, 950, ⟨[], [], [], none, none, [], ⟨true, true, true, true⟩⟩⟩),
           ("c", ⟨"c", 0, 990, ⟨[], [], [], none, none, [], ⟨true, true, true, true⟩⟩⟩),
           ("d", ⟨"d", 0, 920, ⟨[], [], [], none, none, [], ⟨true, true, true,
             true⟩⟩⟩)]).length = 2) :=
  cleanupOldSessions_spec ⟨2, 100⟩ 1000
    [("a", ⟨"a", 0, 10, ⟨[], [], [], none, none, [], ⟨true, true, true, true⟩⟩⟩),
     ("b", ⟨"b", 0, 950, ⟨[], [], [], none, none, [], ⟨true, true, true, true⟩⟩⟩),
     ("c", ⟨"c", 0, 990, ⟨[], [], [], none, none, [], ⟨true, true, true, true⟩⟩⟩),
     ("d", ⟨"d", 0, 920, ⟨[], [], [], none, none, [], ⟨true, true, true, true⟩⟩⟩)]
    (by decide)

/-- Embedding of `SessionManager.getSession`: a successful lookup bumps
`lastAccessed` to the current time, mutating the stored session. -/
def getSession (now : Int) (store : List (String × SessionRec)) (sid : String) :
    Option SessionRec × List (String × SessionRec) :=
  match lookupEntry store sid with
  | none => (none, store)
  | some s =>
    (some { s with lastAccessed := now }, setEntry store sid { s with lastAccessed := now })

/-- Plain-object form produced by `SessionManager.exportSession`: the maps
as ordered entry arrays plus the scalar fields. -/
structure ExportData where
  id : String
  createdAt : Int
  lastAccessed : Int
  cookies : List (String × CookieRec)
  localStorage : List (String × String)
  sessionStorage : List (String × String)
  customProxy : Option String
  userAgent : Option String
  headers : List (String × String)
  settings : Settings
deriving Repr, DecidableEq

/-- Embedding of `SessionManager.exportSession`: `null` for an unknown id,
otherwise the session read through `getSession` (so with `lastAccessed`
bumped) flattened to the export shape. -/
def exportSession (now : Int) (store : List (String × SessionRec)) (sid : String) :
    Option ExportData × List (String × SessionRec) :=
  match getSession now store sid with
  | (none, st) => (none, st)
  | (some s, st) =>
    (some ⟨s.id, s.createdAt, s.lastAccessed, s.data.cookies, s.data.localStorage,
      s.data.sessionStorage, s.data.customProxy, s.data.userAgent, s.data.headers,
      s.data.settings⟩, st)

/-- Argument of `SessionManager.importSession`: every field may be absent
(`undefined`), and the nullable scalars may carry `null` modelled as
`none`. -/
structure ImportData where
  id : Option String := none
  createdAt : Option Int := none
  lastAccessed : Option Int := none
  cookies : Option (List (String × CookieRec)) := none
  localStorage : Option (List (String × String)) := none
  sessionStorage : Option (List (String × String)) := none
  customProxy : Option String := none
  userAgent : Option String := none
  headers : Option (List (String × String)) := none
  settings : Option Settings := none

/-- JS falsy-coalescing `x || d` on an optional string: absent and empty
values fall back to the default. -/
def jsOrString (x : Option String) (d : String) : String :=
  match x with
  | some s => if s = "" then d else s
  | none => d

/-- JS falsy-coalescing `x || null` on an optional string. -/
def jsOrNullString (x : Option String) : Option String :=
  match x with
  | some s => if s = "" then none else some s
  | none => none

/-- JS falsy-coalescing `x || d` on an optional number: absent and zero
values fall back to the default. -/
def jsOrInt (x : Option Int) (d : Int) : Int :=
  match x with
  | some n => if n = 0 then d else n
  | none => d

/-- Model of the JS `new Map(entries)` constructor on an entry list: later
entries with a duplicate key overwrite in place. -/
def jsMapOfEntries {k v : Type} [DecidableEq k] (l : List (k × v)) : List (k × v) :=
  l.foldl (fun acc p => setEntry acc p.1 p.2) []

/-- Embedding of `SessionManager.importSession`: a session rebuilt from
the import data with falsy-coalesced defaults (a fresh random id when none
is given, modelled by the `freshId` argument standing for the generator's
output) and installed in the store under its id. -/
def importSession (freshId : String) (now : Int) (store : List (String × SessionRec))
    (d : ImportData) : String × List (String × SessionRec) :=
  let s : SessionRec := {
    id := jsOrString d.id freshId
    createdAt := jsOrInt d.createdAt now
    lastAccessed := jsOrInt d.lastAccessed now
    data := {
      cookies := jsMapOfEntries (d.cookies.getD [])
      localStorage := jsMapOfEntries (d.localStorage.getD [])
      sessionStorage := jsMapOfEntries (d.sessionStorage.getD [])
      customProxy := jsOrNullString d.customProxy
      userAgent := jsOrNullString d.userAgent
      headers := d.headers.getD []
      settings := d.settings.getD ⟨false, false, false, false⟩ } }
  (s.id, setEntry store s.id s)

/-- Serialization round trip from export shape to import shape, as the
exported plain object is fed back to `importSession`. -/
def exportToImport (ed : ExportData) : ImportData :=
  ⟨some ed.id, some ed.createdAt, some ed.lastAccessed, some ed.cookies,
    some ed.localStorage, some ed.sessionStorage, ed.customProxy, ed.userAgent,
    some ed.headers, some ed.settings⟩

theorem setEntry_append_of_not_mem {k v : Type} [DecidableEq k] {l : List (k × v)}
    {key : k} (val : v) (h : ¬key ∈ l.map Prod.fst) :
    setEntry l key val = l ++ [(key, val)] := by
  induction l with
  | nil => rfl
  | cons q t ih =>
    obtain ⟨k0, v0⟩ := q
    simp only [List.map_cons, List.mem_cons, not_or] at h
    rw [setEntry, if_neg (fun hc : k0 = key => h.1 hc.symm), List.cons_append, ih h.2]

theorem foldl_setEntry_eq_append {k v : Type} [DecidableEq k] :
    ∀ (l acc : List (k × v)), (l.map Prod.fst).Nodup →
      (∀ x ∈ l.map Prod.fst, ¬x ∈ acc.map Prod.fst) →
      l.foldl (fun acc p => setEntry acc p.1 p.2) acc = acc ++ l := by
  intro l
  induction l with
  | nil => intro acc _ _; simp
  | cons p t ih =>
    intro acc hnd hdisj
    rw [List.foldl_cons]
    have hp1 : ¬p.1 ∈ acc.map Prod.fst := hdisj p.1 (by simp)
    simp only [List.map_cons, List.nodup_cons] at hnd
    rw [setEntry_append_of_not_mem p.2 hp1, ih (acc ++ [(p.1, p.2)]) hnd.2]
    · simp
    · intro x hx
      simp only [List.map_append, List.mem_append, List.map_cons, List.map_nil,
        List.mem_singleton, not_or]
      refine ⟨fun hc => hdisj x (List.mem_cons_of_mem _ hx) hc, fun hc => ?_⟩
      rw [hc] at hx
      exact hnd.1 hx

/-- Reconstruction of a map from its own entries: with distinct keys the
JS Map constructor rebuilds exactly the original entry list. -/
theorem jsMapOfEntries_eq_self {k v : Type} [DecidableEq k] (l : List (k × v))
    (hnd : (l.map Prod.fst).Nodup) : jsMapOfEntries l = l := by
  unfold jsMapOfEntries
  rw [foldl_setEntry_eq_append l [] hnd (by simp)]
  simp

/-- Claim C8: exporting a stored session and importing the result is a
lossless round trip for the id, the cookie jar, both storage mirrors and
the scalar fields, and importing data that carries no id installs the
session under a freshly generated id. The hypotheses state that the
session is one the store can produce: a nonempty (truthy) random id, map
keys unique as in a JS Map, and nullable scalars either null or nonempty
as `createSession` installs them. -/
theorem exportImport_roundtrip (now now2 : Int) (fresh : String)
    (store store2 : List (String × SessionRec)) (sid : String) (s : SessionRec)
    (hl : lookupEntry store sid = some s) (hid : ¬s.id = "")
    (hcp : ¬s.data.customProxy = some "") (hua : ¬s.data.userAgent = some "")
    (hck : (s.data.cookies.map Prod.fst).Nodup)
    (hls : (s.data.localStorage.map Prod.fst).Nodup)
    (hss : (s.data.sessionStorage.map Prod.fst).Nodup) :
    (∃ ed, (exportSession now store sid).1 = some ed ∧
      (importSession fresh now2 store2 (exportToImport ed)).1 = s.id ∧
      ∃ s2, lookupEntry (importSession fresh now2 store2 (exportToImport ed)).2 s.id =
          some s2 ∧
        s2.id = s.id ∧ s2.data.cookies = s.data.cookies ∧
        s2.data.localStorage = s.data.localStorage ∧
        s2.data.sessionStorage = s.data.sessionStorage ∧
        s2.data.customProxy = s.data.customProxy ∧
        s2.data.userAgent = s.data.userAgent ∧
        s2.data.headers = s.data.headers ∧
        s2.data.settings = s.data.settings) ∧
      (∀ d : ImportData, d.id = none ∨ d.id = some "" →
        (importSession fresh now2 store2 d).1 = fresh) := by
  have hsid : jsOrString (some s.id) fresh = s.id := by
    unfold jsOrString
    dsimp only
    rw [if_neg hid]
  have hcp2 : jsOrNullString s.data.customProxy = s.data.customProxy := by
    unfold jsOrNullString
    cases hx : s.data.customProxy with
    | none => rfl
    | some v =>
      dsimp only
      rw [if_neg]
      intro hv
      exact hcp (by rw [hx, hv])
  have hua2 : jsOrNullString s.data.userAgent = s.data.userAgent := by
    unfold jsOrNullString
    cases hx : s.data.userAgent with
    | none => rfl
    | some v =>
      dsimp only
      rw [if_neg]
      intro hv
      exact hua (by rw [hx, hv])
  have hexp : exportSession now store sid = (some ⟨s.id, s.createdAt, now, s.data.cookies,
      s.data.localStorage, s.data.sessionStorage, s.data.customProxy, s.data.userAgent,
      s.data.headers, s.data.settings⟩, setEntry store sid { s with lastAccessed := now }) := by
    unfold exportSession getSession
    rw [hl]
  have himp : importSession fresh now2 store2 (exportToImport ⟨s.id, s.createdAt, now,
      s.data.cookies, s.data.localStorage, s.data.sessionStorage, s.data.customProxy,
      s.data.userAgent, s.data.headers, s.data.settings⟩) =
      (s.id, setEntry store2 s.id ⟨s.id, jsOrInt (some s.createdAt) now2,
        jsOrInt (some now) now2, ⟨s.data.cookies, s.data.localStorage,
        s.data.sessionStorage, s.data.customProxy, s.data.userAgent, s.data.headers,
        s.data.settings⟩⟩) := by
    unfold importSession exportToImport
    dsimp only
    simp only [Option.getD_some]
    rw [hsid, hcp2, hua2, jsMapOfEntries_eq_self _ hck, jsMapOfEntries_eq_self _ hls,
      jsMapOfEntries_eq_self _ hss]
  refine ⟨⟨⟨s.id, s.createdAt, now, s.data.cookies, s.data.localStorage,
    s.data.sessionStorage, s.data.customProxy, s.data.userAgent, s.data.headers,
    s.data.settings⟩, ?_, ?_, ?_⟩, ?_⟩
  · rw [hexp]
  · rw [himp]
  · refine ⟨⟨s.id, jsOrInt (some s.createdAt) now2, jsOrInt (some now) now2,
      ⟨s.data.cookies, s.data.localStorage, s.data.sessionStorage, s.data.customProxy,
        s.data.userAgent, s.data.headers, s.data.settings⟩⟩, ?_, rfl, rfl, rfl, rfl, rfl,
      rfl, rfl, rfl⟩
    rw [himp]
    exact lookupEntry_setEntry store2 s.id _
  · intro d hd
    unfold importSession
    dsimp only
    rcases hd with hd | hd <;> rw [hd] <;> unfold jsOrString <;> simp

/-- Concrete session used by the round-trip witness. -/
def sampleSession : SessionRec :=
  ⟨"abc", 1, 2, ⟨[("c", ⟨"v", "", "/", none, false, false, "Lax"⟩)], [("k", "w")], [],
    none, none, [("h", "x")], ⟨true, true, true, true⟩⟩⟩

/-- Concrete one-session store used by the round-trip witness. -/
def sampleStore : List (String × SessionRec) := [("abc", sampleSession)]

/-- Witness for C8 on a concrete stored session. -/
theorem exportImport_roundtrip_witness :
    (∃ ed, (exportSession 100 sampleStore "abc").1 = some ed ∧
      (importSession "fresh" 200 [] (exportToImport ed)).1 = sampleSession.id ∧
      ∃ s2, lookupEntry (importSession "fresh" 200 [] (exportToImport ed)).2
          sampleSession.id = some s2 ∧
        s2.id = sampleSession.id ∧ s2.data.cookies = sampleSession.data.cookies ∧
        s2.data.localStorage = sampleSession.data.localStorage ∧
        s2.data.sessionStorage = sampleSession.data.sessionStorage ∧
        s2.data.customProxy = sampleSession.data.customProxy ∧
        s2.data.userAgent = sampleSession.data.userAgent ∧
        s2.data.headers = sampleSession.data.headers ∧
        s2.data.settings = sampleSession.data.settings) ∧
      (importSession "fresh" 200 [] ({} : ImportData)).1 = "fresh" :=
  ⟨(exportImport_roundtrip 100 200 "fresh" sampleStore [] "abc" sampleSession (by decide)
      (by decide) (by decide) (by decide) (by decide) (by decide) (by decide)).1,
    (exportImport_roundtrip 100 200 "fresh" sampleStore [] "abc" sampleSession (by decide)
      (by decide) (by decide) (by decide) (by decide) (by decide) (by decide)).2
      ({} : ImportData) (Or.inl rfl)⟩

end Bourbon
